import Mathlib

/-!
Shallow embedding of the auscultation serial-bridge core: the command
encoder and the HTTP command-formatting handler from
`supabase/functions/arduino-bridge/index.ts`, and the serial transport
hook from `src/hooks/useArduinoSerial.ts`.

Modelling conventions: JS strings are Lean strings, and a JS UTF-16 code
unit (`charCodeAt`) is modelled as the code point of the corresponding
Lean character; the two agree on the Basic Multilingual Plane, which
covers every value appearing in these claims.  JS numbers carried by the
commands are modelled as integers.  JS `undefined` for an optional field
is `Option.none`, and the JS truthiness tests the code performs (`x || d`,
`!x`, `if (s.trim())`) are modelled explicitly: for strings both
`undefined` and `""` are falsy, for numbers both `undefined` and `0` are
falsy.
-/

namespace Auscultation

/-- JS fallback `x || d` for an optional string: both `undefined` and the
empty string are falsy and select the default. -/
def jsOrStr (o : Option String) (d : String) : String :=
  match o with
  | none => d
  | some s => if s = "" then d else s

/-- JS fallback `x || d` for an optional number: both `undefined` and `0`
are falsy and select the default. -/
def jsOrInt (o : Option Int) (d : Int) : Int :=
  match o with
  | none => d
  | some v => if v = 0 then d else v

/-- JS template-literal rendering of a possibly-`undefined` string. -/
def jsShow (o : Option String) : String :=
  match o with
  | none => "undefined"
  | some s => s

/-- The UTF-16 code units of a string (`charCodeAt` at each index),
modelled as the code points of its characters. -/
def codeUnits (s : String) : List Nat :=
  s.data.map Char.toNat

/-- Rebuild a string from a list of code units (the inverse used to state
that the frame payload decodes back to `raw`). -/
def decodeUnits (l : List Nat) : String :=
  String.mk (l.map Char.ofNat)

/-- JS `toUpperCase`, per code unit (source: `soundCode?.toUpperCase()`). -/
def jsToUpper (s : String) : String :=
  String.mk (s.data.map Char.toUpper)

/-- Table `SYSTEM_CODES` from `arduino-bridge/index.ts` lines 9-13. -/
def SYSTEM_CODES : List (String × String) :=
  [("lung", "L"), ("heart", "H"), ("bowel", "B")]

/-- Table `LOCATION_CODES` from `arduino-bridge/index.ts` lines 16-41. -/
def LOCATION_CODES : List (String × String) :=
  [("right-upper-anterior", "RUA"),
   ("right-middle-anterior", "RMA"),
   ("right-lower-anterior", "RLA"),
   ("left-upper-anterior", "LUA"),
   ("left-lower-anterior", "LLA"),
   ("right-upper-posterior", "RUP"),
   ("right-middle-posterior", "RMP"),
   ("right-lower-posterior", "RLP"),
   ("left-upper-posterior", "LUP"),
   ("left-middle-posterior", "LMP"),
   ("left-lower-posterior", "LLP"),
   ("aortic", "AOR"),
   ("pulmonic", "PUL"),
   ("erbs-point", "ERB"),
   ("tricuspid", "TRI"),
   ("mitral", "MIT"),
   ("ruq", "RUQ"),
   ("luq", "LUQ"),
   ("rlq", "RLQ"),
   ("llq", "LLQ"),
   ("periumbilical", "PER")]

/-- The `ArduinoCommand` interface: `action` is a string at runtime
(optional, so the handler can detect its absence), the remaining fields
are optional. -/
structure ArduinoCommand where
  action : Option String := none
  system : Option String := none
  soundCode : Option String := none
  location : Option String := none
  volume : Option Int := none
deriving DecidableEq

/-- The `FormattedCommand` interface: the frame derived from a command. -/
structure FormattedCommand where
  raw : String
  bytes : List Nat
  checksum : Nat
  description : String
deriving DecidableEq

/-- Function `calculateChecksum` (lines 58-64): sum of the code units mod 256. -/
def calculateChecksum (data : String) : Nat :=
  (codeUnits data).sum % 256

/-- The volume value the encoder embeds in play and volume frames:
`Math.min(10, Math.max(0, command.volume || 5))` (lines 76 and 88). -/
def clampVolume (v : Int) : Int :=
  min 10 (max 0 v)

/-- The effective volume used for encoding: JS default `volume || 5`
then the clamp. -/
def effectiveVolume (o : Option Int) : Int :=
  clampVolume (jsOrInt o 5)

/-- Function `formatCommand` (lines 66-121).  The `switch` is an if-chain on the
action string; each branch produces the `raw` payload and the
human-readable description, after which the checksum and the frame bytes
`[STX] ++ codeUnits(raw) ++ [ETX, checksum]` are built uniformly. -/
def formatCommand (command : ArduinoCommand) : FormattedCommand :=
  let pair : String × String :=
    if command.action = some "play" then
      let systemCode := jsOrStr (SYSTEM_CODES.lookup (jsOrStr command.system "")) "U"
      let soundCode := jsOrStr (command.soundCode.map jsToUpper) "UNK"
      let locationCode := jsOrStr (LOCATION_CODES.lookup (jsOrStr command.location "")) "UNK"
      let volume := effectiveVolume command.volume
      ("P:" ++ systemCode ++ ":" ++ soundCode ++ ":" ++ locationCode ++ ":" ++ toString volume,
       "Play " ++ jsShow command.system ++ " sound \"" ++ soundCode ++ "\" at "
         ++ jsShow command.location ++ " with volume " ++ toString volume)
    else if command.action = some "stop" then
      ("S", "Stop all playback")
    else if command.action = some "volume" then
      let vol := effectiveVolume command.volume
      ("V:" ++ toString vol, "Set volume to " ++ toString vol)
    else if command.action = some "status" then
      ("Q", "Query device status")
    else
      ("N", "No operation")
  let raw := pair.1
  let checksum := calculateChecksum raw
  { raw := raw
    bytes := 0x02 :: (codeUnits raw ++ [0x03, checksum])
    checksum := checksum
    description := pair.2 }

/-- Spec-side wording for C2: the system letter is L for lung, H for
heart, B for bowel and U for anything else. -/
def sysCodeSpec (system : Option String) : String :=
  if system = some "lung" then "L"
  else if system = some "heart" then "H"
  else if system = some "bowel" then "B"
  else "U"

/-- Spec-side wording for C2: the uppercased sound code, `UNK` if the
field is missing (spec formula `upper(soundCode||"UNK")`). -/
def soundCodeSpec (soundCode : Option String) : String :=
  jsToUpper (jsOrStr soundCode "UNK")

/-- Spec-side wording for C2: the fixed 3-letter table entry, or `UNK`
for an unmapped location. -/
def locCodeSpec (location : Option String) : String :=
  match LOCATION_CODES.lookup (location.getD "") with
  | some code => code
  | none => "UNK"

/-- Spec-side wording for C2: the whole play payload
`"P:" + sysCode + ":" + upper(soundCode||"UNK") + ":" + locCode + ":" +
clampVolume(volume||5)`. -/
def rawPlaySpec (system soundCode location : Option String) (volume : Option Int) : String :=
  "P:" ++ sysCodeSpec system ++ ":" ++ soundCodeSpec soundCode ++ ":"
    ++ locCodeSpec location ++ ":" ++ toString (clampVolume (jsOrInt volume 5))

/-- The worked example of the specification: a play command for the
normal lung sound at the right upper anterior site with volume 12. -/
def examplePlay : ArduinoCommand :=
  { action := some "play"
    system := some "lung"
    soundCode := some "lung_normal"
    location := some "right-upper-anterior"
    volume := some 12 }

/-- Decoding the code units of a string gives the string back. -/
theorem decodeUnits_codeUnits (s : String) : decodeUnits (codeUnits s) = s := by
  have h : ∀ l : List Char, (l.map Char.toNat).map Char.ofNat = l := by
    intro l
    induction l with
    | nil => rfl
    | cons a t ih => simp only [List.map_cons, Char.ofNat_toNat, ih]
  cases s with
  | mk data =>
    show String.mk ((data.map Char.toNat).map Char.ofNat) = String.mk data
    rw [h]

/-- Positional facts about a frame `[STX] ++ xs ++ [ETX, k]`: the
second-to-last byte is ETX, the last byte is the checksum, and the middle
slice is the payload. -/
theorem frame_shape (xs : List Nat) (k : Nat) :
    ((0x02 :: xs) ++ [0x03, k]).getD (((0x02 :: xs) ++ [0x03, k]).length - 2) 0 = 0x03 ∧
    ((0x02 :: xs) ++ [0x03, k]).getD (((0x02 :: xs) ++ [0x03, k]).length - 1) 0 = k ∧
    (((0x02 :: xs) ++ [0x03, k]).drop 1).take (((0x02 :: xs) ++ [0x03, k]).length - 3) = xs := by
  have hlen : ((0x02 :: xs) ++ [0x03, k]).length = xs.length + 3 := by
    simp
  refine ⟨?_, ?_, ?_⟩
  · rw [hlen]
    have h2 : xs.length + 3 - 2 = xs.length + 1 := by omega
    rw [h2, List.getD_append_right (0x02 :: xs) [0x03, k] 0 (xs.length + 1) (by simp)]
    simp
  · rw [hlen]
    have h1 : xs.length + 3 - 1 = xs.length + 2 := by omega
    rw [h1, List.getD_append_right (0x02 :: xs) [0x03, k] 0 (xs.length + 2) (by simp)]
    simp
  · rw [hlen]
    have h3 : xs.length + 3 - 3 = xs.length := by omega
    rw [h3]
    have hd : ((0x02 :: xs) ++ [0x03, k]).drop 1 = xs ++ [0x03, k] := rfl
    rw [hd]
    exact List.take_left xs [0x03, k]

/-- C1: for every command, the encoder emits
`bytes = [0x02] ++ codeUnits raw ++ [0x03, checksum raw]` with
`checksum raw = (sum of the code units of raw) mod 256`; consequently the
first byte is STX, `bytes[len-2]` is ETX, `bytes[len-1]` is the checksum,
and the middle slice `bytes[1 .. len-2]` decodes back exactly to `raw`. -/
theorem formatCommand_frame_round_trip (c : ArduinoCommand) :
    (formatCommand c).bytes
      = 0x02 :: (codeUnits (formatCommand c).raw
          ++ [0x03, calculateChecksum (formatCommand c).raw]) ∧
    calculateChecksum (formatCommand c).raw
      = (codeUnits (formatCommand c).raw).sum % 256 ∧
    (formatCommand c).bytes.head? = some 0x02 ∧
    (formatCommand c).bytes.getD ((formatCommand c).bytes.length - 2) 0 = 0x03 ∧
    (formatCommand c).bytes.getD ((formatCommand c).bytes.length - 1) 0
      = calculateChecksum (formatCommand c).raw ∧
    decodeUnits (((formatCommand c).bytes.drop 1).take ((formatCommand c).bytes.length - 3))
      = (formatCommand c).raw := by
  have hb : (formatCommand c).bytes
      = 0x02 :: (codeUnits (formatCommand c).raw
          ++ [0x03, calculateChecksum (formatCommand c).raw]) := rfl
  have hb2 : (formatCommand c).bytes
      = (0x02 :: codeUnits (formatCommand c).raw)
          ++ [0x03, calculateChecksum (formatCommand c).raw] := rfl
  obtain ⟨h1, h2, h3⟩ :=
    frame_shape (codeUnits (formatCommand c).raw) (calculateChecksum (formatCommand c).raw)
  refine ⟨hb, rfl, ?_, ?_, ?_, ?_⟩
  · rw [hb]; rfl
  · rw [hb2]; exact h1
  · rw [hb2]; exact h2
  · rw [hb2, h3]
    exact decodeUnits_codeUnits _

/-- A string equals `""` exactly when its character list is empty. -/
theorem eq_empty_iff_data_nil (s : String) : s = "" ↔ s.data = [] := by
  constructor
  · intro h; rw [h]
  · intro h
    cases s with
    | mk data =>
      cases h
      rfl

/-- Mapping `jsToUpper` sends only the empty string to the empty string. -/
theorem jsToUpper_eq_empty_iff (s : String) : jsToUpper s = "" ↔ s = "" := by
  rw [eq_empty_iff_data_nil, eq_empty_iff_data_nil]
  show (s.data.map Char.toUpper) = [] ↔ s.data = []
  simp

/-- A value produced by an association-list lookup is one of the stored
values. -/
theorem lookup_mem_values {α β : Type} [BEq α] :
    ∀ (l : List (α × β)) (a : α) (v : β), l.lookup a = some v → v ∈ l.map Prod.snd := by
  intro l
  induction l with
  | nil => intro a v h; simp [List.lookup] at h
  | cons p t ih =>
    intro a v h
    obtain ⟨k, b⟩ := p
    rw [List.lookup] at h
    cases hbeq : a == k with
    | true =>
      rw [hbeq] at h
      simp at h
      simp [h]
    | false =>
      rw [hbeq] at h
      simp only [List.map_cons, List.mem_cons]
      exact Or.inr (ih a v h)

/-- Falling back with `x || ""` collapses an optional string to `getD ""`. -/
theorem jsOrStr_empty (o : Option String) : jsOrStr o "" = o.getD "" := by
  cases o with
  | none => rfl
  | some s =>
    simp only [jsOrStr, Option.getD_some]
    split
    · simp_all
    · rfl

/-- The system-code computation of the encoder agrees with the spec wording. -/
theorem sysCode_eq (system : Option String) :
    jsOrStr (SYSTEM_CODES.lookup (jsOrStr system "")) "U" = sysCodeSpec system := by
  cases system with
  | none => rfl
  | some str =>
    by_cases hs : str = ""
    · subst hs; rfl
    · by_cases h1 : str = "lung"
      · subst h1; rfl
      · by_cases h2 : str = "heart"
        · subst h2; rfl
        · by_cases h3 : str = "bowel"
          · subst h3; rfl
          · have b1 : (str == "lung") = false := beq_eq_false_iff_ne.mpr h1
            have b2 : (str == "heart") = false := beq_eq_false_iff_ne.mpr h2
            have b3 : (str == "bowel") = false := beq_eq_false_iff_ne.mpr h3
            simp [jsOrStr, hs, SYSTEM_CODES, List.lookup, b1, b2, b3,
              h1, h2, h3, sysCodeSpec]

/-- The sound-code computation of the encoder agrees with the spec wording. -/
theorem soundCode_eq (soundCode : Option String) :
    jsOrStr (soundCode.map jsToUpper) "UNK" = soundCodeSpec soundCode := by
  cases soundCode with
  | none => rfl
  | some s =>
    by_cases hs : s = ""
    · subst hs; rfl
    · have hne : jsToUpper s ≠ "" := fun h => hs ((jsToUpper_eq_empty_iff s).mp h)
      simp [jsOrStr, soundCodeSpec, hs, hne]

/-- The location-code computation of the encoder agrees with the spec wording. -/
theorem locCode_eq (location : Option String) :
    jsOrStr (LOCATION_CODES.lookup (jsOrStr location "")) "UNK" = locCodeSpec location := by
  rw [jsOrStr_empty location]
  cases hl : LOCATION_CODES.lookup (location.getD "") with
  | none => simp [locCodeSpec, hl, jsOrStr]
  | some v =>
    have hv : v ≠ "" := by
      have hm := lookup_mem_values LOCATION_CODES (location.getD "") v hl
      intro h
      subst h
      revert hm
      decide
    simp [locCodeSpec, hl, jsOrStr, hv]

/-- C2: for every play command the encoder produces
`raw = "P:" + sysCode + ":" + upper(soundCode||"UNK") + ":" + locCode +
":" + clampVolume(volume||5)` with the system and location tables of the spec;
in particular the worked example yields `"P:L:LUNG_NORMAL:RUA:10"` and a
25-byte frame. -/
theorem formatCommand_play_raw (c : ArduinoCommand) (h : c.action = some "play") :
    (formatCommand c).raw = rawPlaySpec c.system c.soundCode c.location c.volume ∧
    (formatCommand examplePlay).raw = "P:L:LUNG_NORMAL:RUA:10" ∧
    (formatCommand examplePlay).bytes.length = 25 := by
  refine ⟨?_, by decide, by decide⟩
  simp only [formatCommand, h, if_pos]
  rw [sysCode_eq, soundCode_eq, locCode_eq]
  rfl

/-- Witness for C2 at the worked example of the spec. -/
theorem formatCommand_play_raw_witness :
    (formatCommand examplePlay).raw
        = rawPlaySpec examplePlay.system examplePlay.soundCode
            examplePlay.location examplePlay.volume ∧
      (formatCommand examplePlay).raw = "P:L:LUNG_NORMAL:RUA:10" ∧
      (formatCommand examplePlay).bytes.length = 25 :=
  formatCommand_play_raw examplePlay rfl

/-- A stop command (used as a concrete frame below). -/
def stopCommand : ArduinoCommand :=
  { action := some "stop" }

/-- A play command whose sound code contains a character outside the
byte range (the BMP star, code unit 9733). -/
def starPlay : ArduinoCommand :=
  { action := some "play"
    system := some "lung"
    soundCode := some "★"
    location := some "aortic"
    volume := some 5 }

/-- C7: the volume clamp is `min(10, max(0, v))`, it sends -5 to 0, 15 to
10 and 5 to 5, and the effective volume embedded in every encoded play or
volume command lies in [0,10]. -/
theorem clampVolume_spec :
    (∀ v : Int, clampVolume v = min 10 (max 0 v)) ∧
    clampVolume (-5) = 0 ∧ clampVolume 15 = 10 ∧ clampVolume 5 = 5 ∧
    (∀ c : ArduinoCommand, 0 ≤ effectiveVolume c.volume ∧ effectiveVolume c.volume ≤ 10) := by
  refine ⟨fun v => rfl, by decide, by decide, by decide, fun c => ?_⟩
  unfold effectiveVolume clampVolume
  constructor
  · omega
  · omega

/-- C8 counterexample: the claim that every frame byte lies in [0,255]
fails for `starPlay`, whose sound code puts the code unit 9733 in the
frame. -/
theorem formatCommand_bytes_not_u8 :
    ¬ (∀ b ∈ (formatCommand starPlay).bytes, b ≤ 255) := by
  intro h
  have h9733 := h 9733 (by decide)
  omega

/-- C8 amended: whenever every code unit of the produced payload fits in
a byte — which holds for every command whose fields are ASCII — every
byte of the frame `[0x02] ++ codeUnits(raw) ++ [0x03, checksum]` lies in
[0,255]. -/
theorem formatCommand_bytes_u8 (c : ArduinoCommand)
    (h : ∀ u ∈ codeUnits (formatCommand c).raw, u ≤ 255) :
    ∀ b ∈ (formatCommand c).bytes, b ≤ 255 := by
  intro b hb
  have hbytes : (formatCommand c).bytes
      = 0x02 :: (codeUnits (formatCommand c).raw
          ++ [0x03, calculateChecksum (formatCommand c).raw]) := rfl
  rw [hbytes] at hb
  simp only [List.mem_cons, List.mem_append] at hb
  rcases hb with rfl | hu | rfl | hk
  · omega
  · exact h b hu
  · omega
  · rcases hk with rfl | hnil
    · unfold calculateChecksum
      omega
    · exact absurd hnil (List.not_mem_nil b)

/-- Witness for C8 amended at the stop command. -/
theorem formatCommand_bytes_u8_witness :
    (∀ u ∈ codeUnits (formatCommand stopCommand).raw, u ≤ 255) ∧
    (∀ b ∈ (formatCommand stopCommand).bytes, b ≤ 255) :=
  ⟨by decide, formatCommand_bytes_u8 stopCommand (by decide)⟩

/-- C10: a caller-supplied volume of exactly 0 is treated like a missing
volume — the encoder substitutes the default 5 — so the encoded volume
field is 5, never 0, for such a caller. -/
theorem volume_zero_default (c : ArduinoCommand) (h : c.volume = some 0) :
    formatCommand c = formatCommand { c with volume := none } ∧
    effectiveVolume c.volume = 5 := by
  obtain ⟨a, s, sc, loc, v⟩ := c
  subst h
  exact ⟨rfl, rfl⟩

/-- Witness for C10: a play command sent with volume 0 encodes exactly
like the same command with no volume, with volume field 5. -/
theorem volume_zero_default_witness :
    formatCommand { examplePlay with volume := some 0 }
        = formatCommand { examplePlay with volume := none } ∧
      effectiveVolume (some 0) = 5 :=
  volume_zero_default { examplePlay with volume := some 0 } rfl

/-- Function `addLog` from `useArduinoSerial.ts` lines 89-92: keep the last 99
entries (`prev.slice(-99)`) and append the new timestamped entry; `ts`
is the wall-clock `toLocaleTimeString()` value. -/
def addLog (ts : String) (logs : List String) (message : String) : List String :=
  logs.drop (logs.length - 99) ++ ["[" ++ ts ++ "] " ++ message]

set_option maxRecDepth 4000 in
/-- C9: the diagnostics log never holds more than 100 entries, and after
150 sequential insertions the stored count is exactly 100, the 50 oldest
entries having been evicted first (FIFO order preserved for the rest). -/
theorem addLog_ring_buffer :
    (∀ (ts : String) (logs : List String) (m : String), (addLog ts logs m).length ≤ 100) ∧
    ((List.range 150).map (fun n => toString n)).foldl (addLog "t") []
      = ((List.range 150).drop 50).map (fun n => "[t] " ++ toString n) ∧
    ((((List.range 150).map (fun n => toString n)).foldl (addLog "t") []).length = 100) := by
  refine ⟨?_, by decide, by decide⟩
  intro ts logs m
  simp only [addLog, List.length_append, List.length_drop, List.length_singleton]
  omega

/-- Message-terminator predicate of the read loop: newline or ETX. -/
def isTerm (ch : Char) : Bool :=
  ch == '\n' || ch == '\x03'

/-- JS `String.prototype.split` on a character class, per character:
splits at every separator, keeping empty segments, and yields `[""]` for
the empty string. -/
def splitChars (p : Char → Bool) : List Char → List String
  | [] => [""]
  | c :: rest =>
    match splitChars p rest with
    | [] => [""]
    | s :: ss =>
      if p c then "" :: s :: ss
      else String.mk (c :: s.data) :: ss

/-- JS split of a string on a character class. -/
def jsSplit (p : Char → Bool) (s : String) : List String :=
  splitChars p s.data

/-- JS `String.prototype.trim`: strip whitespace from both ends. -/
def jsTrim (s : String) : String :=
  String.mk (((s.data.dropWhile Char.isWhitespace).reverse.dropWhile
      Char.isWhitespace).reverse)

/-- The state the read loop touches: its carry-over buffer, the log, and
the two surfaced device-status fields. -/
structure ReaderState where
  buffer : String
  logs : List String
  lastResponse : Option String
  lastCommandTime : Option Nat
deriving DecidableEq

/-- Body of the `for` loop in `readLoop` (lines 180-188): a non-blank
segment is logged as received and becomes `lastResponse`. -/
def handleLine (ts : String) (st : ReaderState) (line : String) : ReaderState :=
  if jsTrim line = "" then st
  else
    { st with
      logs := addLog ts st.logs ("← " ++ jsTrim line)
      lastResponse := some (jsTrim line) }

/-- One iteration of `readLoop` (lines 170-189) on an already-decoded
chunk: append to the carry-over, split on terminators, keep the final
segment as the new carry-over, process every other segment. -/
def processChunk (ts : String) (st : ReaderState) (chunk : String) : ReaderState :=
  let lines := jsSplit isTerm (st.buffer ++ chunk)
  let rest := jsOrStr lines.getLast? ""
  lines.dropLast.foldl (handleLine ts) { st with buffer := rest }

/-- The last element of a nonempty list, with the head as fallback. -/
theorem getLast?_cons_eq {α : Type} (xs : List α) :
    ∀ a : α, (a :: xs).getLast? = some ((xs.getLast?).getD a) := by
  induction xs with
  | nil => intro a; rfl
  | cons b t ih =>
    intro a
    rw [List.getLast?_cons_cons, ih b]
    rfl

/-- Processing segments only appends received-message log entries and
updates `lastResponse`; the carry-over buffer and `lastCommandTime` are
untouched by the loop body. -/
theorem foldl_handleLine (ts : String) :
    ∀ (ls : List String) (st : ReaderState),
      (ls.foldl (handleLine ts) st).buffer = st.buffer ∧
      (ls.foldl (handleLine ts) st).lastCommandTime = st.lastCommandTime ∧
      (ls.foldl (handleLine ts) st).logs
        = ((ls.map jsTrim).filter (fun s => s ≠ "")).foldl
            (fun l m => addLog ts l ("← " ++ m)) st.logs ∧
      (ls.foldl (handleLine ts) st).lastResponse
        = (((ls.map jsTrim).filter (fun s => s ≠ "")).getLast?).elim
            st.lastResponse some := by
  intro ls
  induction ls with
  | nil => intro st; exact ⟨rfl, rfl, rfl, rfl⟩
  | cons l t ih =>
    intro st
    by_cases h : jsTrim l = ""
    · have hstep : handleLine ts st l = st := by simp [handleLine, h]
      have hmsgs : (((l :: t).map jsTrim).filter (fun s => s ≠ ""))
          = ((t.map jsTrim).filter (fun s => s ≠ "")) := by
        simp [h]
      simp only [List.foldl_cons, hstep, hmsgs]
      exact ih st
    · have hstep : handleLine ts st l
          = { st with
              logs := addLog ts st.logs ("← " ++ jsTrim l)
              lastResponse := some (jsTrim l) } := by
        simp [handleLine, h]
      have hmsgs : (((l :: t).map jsTrim).filter (fun s => s ≠ ""))
          = jsTrim l :: ((t.map jsTrim).filter (fun s => s ≠ "")) := by
        simp [h]
      obtain ⟨ihb, iht, ihl, ihr⟩ := ih (handleLine ts st l)
      refine ⟨?_, ?_, ?_, ?_⟩
      · rw [List.foldl_cons, ihb, hstep]
      · rw [List.foldl_cons, iht, hstep]
      · rw [List.foldl_cons, ihl, hstep, hmsgs, List.foldl_cons]
      · rw [List.foldl_cons, ihr, hstep, hmsgs, getLast?_cons_eq]
        cases hlast : ((t.map jsTrim).filter (fun s => s ≠ "")).getLast? with
        | none =>
          simp only [hlast, Option.elim, Option.getD]
        | some m =>
          simp only [hlast, Option.elim, Option.getD]

/-- C3 counterexample: feeding `"A\nB\x03C"` to a fresh read loop does
emit `"A"` then `"B"` (both are logged and the latter is recorded as
`lastResponse`) and leaves carry-over `"C"`, yet `lastCommandTime` stays
`none`: the loop never records it, contrary to the claim that each
complete message is recorded as `lastResponse` and `lastCommandTime`. -/
theorem processChunk_lastCommandTime_counterexample :
    (processChunk "t" ⟨"", [], none, none⟩ "A\nB\x03C").logs
        = ["[t] ← A", "[t] ← B"] ∧
    (processChunk "t" ⟨"", [], none, none⟩ "A\nB\x03C").lastResponse = some "B" ∧
    (processChunk "t" ⟨"", [], none, none⟩ "A\nB\x03C").buffer = "C" ∧
    (processChunk "t" ⟨"", [], none, none⟩ "A\nB\x03C").lastCommandTime = none := by
  decide

/-- C3 amended: the carry-over buffer plus the decoded chunk is split on
newline and ETX as equivalent terminators; every segment except the last
— trimmed, empty segments ignored — is logged as received and recorded
as `lastResponse` (only; `lastCommandTime` is left untouched, it is set
by the send path); the final segment becomes the new carry-over.  Feeding
`"A\nB\x03C"` emits `"A"` then `"B"`, leaving carry-over `"C"`. -/
theorem processChunk_spec (ts : String) (st : ReaderState) (chunk : String) :
    (processChunk ts st chunk).buffer
      = jsOrStr (jsSplit isTerm (st.buffer ++ chunk)).getLast? "" ∧
    (processChunk ts st chunk).lastCommandTime = st.lastCommandTime ∧
    (processChunk ts st chunk).logs
      = ((((jsSplit isTerm (st.buffer ++ chunk)).dropLast.map jsTrim).filter
            (fun s => s ≠ "")).foldl (fun l m => addLog ts l ("← " ++ m)) st.logs) ∧
    (processChunk ts st chunk).lastResponse
      = ((((jsSplit isTerm (st.buffer ++ chunk)).dropLast.map jsTrim).filter
            (fun s => s ≠ "")).getLast?).elim st.lastResponse some ∧
    processChunk "t" ⟨"", [], none, none⟩ "A\nB\x03C"
      = ⟨"C", ["[t] ← A", "[t] ← B"], some "B", none⟩ := by
  obtain ⟨hb, ht, hl, hr⟩ :=
    foldl_handleLine ts ((jsSplit isTerm (st.buffer ++ chunk)).dropLast)
      { st with buffer := jsOrStr (jsSplit isTerm (st.buffer ++ chunk)).getLast? "" }
  exact ⟨hb, ht, hl, hr, by decide⟩

/-- The `deviceStatus` projection of the transport manager.  -/
structure DeviceStatus where
  connected : Bool
  portName : Option String
  lastResponse : Option String
  lastCommandTime : Option Nat
deriving DecidableEq

/-- The mutable state the serial hook owns: the three React state flags,
the device-status projection, the log, and whether the port/reader/writer
refs currently hold a resource. -/
structure TransportState where
  isSupported : Bool
  isConnected : Bool
  isConnecting : Bool
  deviceStatus : DeviceStatus
  logs : List String
  hasPort : Bool
  hasReader : Bool
  hasWriter : Bool
deriving DecidableEq

/-- Function `disconnect` (lines 199-233): the four teardown steps run in order
inside a single `try` block; the first step that throws jumps to the
`catch`, which logs the error and rethrows nothing.  The flags model
whether `reader.cancel()`, `writer.close()` and `port.close()` throw
(`releaseLock` and the state updates cannot), and `e` is the thrown
message. -/
def disconnect (ts : String) (st : TransportState)
    (cancelFails writerCloseFails portCloseFails : Bool) (e : String) : TransportState :=
  if st.hasReader && cancelFails then
    { st with logs := addLog ts st.logs ("Disconnect error: " ++ e) }
  else
    let st1 := { st with hasReader := false }
    if st1.hasWriter && writerCloseFails then
      { st1 with logs := addLog ts st1.logs ("Disconnect error: " ++ e) }
    else
      let st2 := { st1 with hasWriter := false }
      if st2.hasPort && portCloseFails then
        { st2 with logs := addLog ts st2.logs ("Disconnect error: " ++ e) }
      else
        { st2 with
          hasPort := false
          isConnected := false
          deviceStatus := ⟨false, none, none, none⟩
          logs := addLog ts st2.logs "Disconnected from serial device" }

/-- A fully connected transport state holding all three resources. -/
def connectedState : TransportState :=
  { isSupported := true
    isConnected := true
    isConnecting := false
    deviceStatus := ⟨true, some "Arduino Device", none, none⟩
    logs := []
    hasPort := true
    hasReader := true
    hasWriter := true }

/-- C4 counterexample: when step 1 of the teardown (`reader.cancel()`)
throws, the later steps do not execute — the writer and the port stay
open — and the manager does not end Disconnected: `isConnected` is still
true, only the error is logged. -/
theorem disconnect_counterexample :
    (disconnect "t" connectedState true false false "cancel failed").hasWriter = true ∧
    (disconnect "t" connectedState true false false "cancel failed").hasPort = true ∧
    (disconnect "t" connectedState true false false "cancel failed").isConnected = true ∧
    (disconnect "t" connectedState true false false "cancel failed").logs
      = ["[t] Disconnect error: cancel failed"] := by
  decide

/-- C4 amended: `disconnect()` attempts the four teardown steps in order
inside one guarded block; every failure is logged and never propagated,
but the first failing step aborts the remaining steps and the state
reset, so only the failure-free run releases every resource and ends in
state Disconnected with the device status cleared. -/
theorem disconnect_spec (ts e : String) (st : TransportState) (h : st.hasReader = true) :
    (disconnect ts st false false false e).hasReader = false ∧
    (disconnect ts st false false false e).hasWriter = false ∧
    (disconnect ts st false false false e).hasPort = false ∧
    (disconnect ts st false false false e).isConnected = false ∧
    (disconnect ts st false false false e).deviceStatus = ⟨false, none, none, none⟩ ∧
    (disconnect ts st false false false e).logs
      = addLog ts st.logs "Disconnected from serial device" ∧
    disconnect ts st true false false e
      = { st with logs := addLog ts st.logs ("Disconnect error: " ++ e) } := by
  obtain ⟨sup, conn, cing, ds, lg, hp, hr, hw⟩ := st
  cases h
  refine ⟨?_, ?_, ?_, ?_, ?_, ?_, ?_⟩ <;> simp [disconnect]

/-- Witness for C4 amended at the fully connected state. -/
theorem disconnect_spec_witness :
    (disconnect "t" connectedState false false false "e").hasReader = false ∧
    (disconnect "t" connectedState false false false "e").hasWriter = false ∧
    (disconnect "t" connectedState false false false "e").hasPort = false ∧
    (disconnect "t" connectedState false false false "e").isConnected = false ∧
    (disconnect "t" connectedState false false false "e").deviceStatus
      = ⟨false, none, none, none⟩ ∧
    (disconnect "t" connectedState false false false "e").logs
      = addLog "t" connectedState.logs "Disconnected from serial device" ∧
    disconnect "t" connectedState true false false "e"
      = { connectedState with
          logs := addLog "t" connectedState.logs ("Disconnect error: " ++ "e") } :=
  disconnect_spec "t" "e" connectedState rfl

/-- The completed outcome of one `connect` call: the final state, the
returned boolean, and whether the call requested a device from the
user. -/
structure ConnectOutcome where
  state : TransportState
  ok : Bool
  requestedPort : Bool
deriving DecidableEq

/-- Function `connect` (lines 99-159).  Unsupported environments fail fast;
`isConnected` short-circuits with success; otherwise the call requests a
port and opens it (`connectFails` models a throw from `requestPort` or
`port.open`, `e` the message), acquires the writer and reader when the
port streams exist, spawns the read loop and sets state Connected;
`isConnecting` is raised during the attempt and cleared in the `finally`
block, so it is false in every completed outcome. -/
def connect (ts : String) (st : TransportState) (connectFails : Bool) (e : String)
    (readable writable : Bool) : ConnectOutcome :=
  if st.isSupported = false then
    ⟨st, false, false⟩
  else if st.isConnected then
    ⟨st, true, false⟩
  else if connectFails then
    ⟨{ st with
        isConnecting := false
        logs := addLog ts st.logs ("Connection failed: " ++ e) }, false, true⟩
  else
    ⟨{ st with
        isConnecting := false
        hasPort := true
        hasWriter := writable
        hasReader := readable
        isConnected := true
        deviceStatus := { st.deviceStatus with
                          connected := true
                          portName := some "Arduino Device" }
        logs := addLog ts st.logs "Connected to serial device" }, true, true⟩

/-- A transport state captured while a first `connect` call is still
awaiting the port chooser: Connecting, not yet Connected. -/
def connectingState : TransportState :=
  { isSupported := true
    isConnected := false
    isConnecting := true
    deviceStatus := ⟨false, none, none, none⟩
    logs := []
    hasPort := false
    hasReader := false
    hasWriter := false }

/-- C5 counterexample: a `connect()` call made while the manager is
Connecting is not a no-op — the guard only checks `isConnected` — so it
requests a device and acquires a further reader/writer pair. -/
theorem connect_connecting_counterexample :
    (connect "t" connectingState false "e" true true).requestedPort = true ∧
    (connect "t" connectingState false "e" true true).state.hasReader = true ∧
    (connect "t" connectingState false "e" true true).state.hasWriter = true := by
  decide

/-- C5 amended: `connect()` while already Connected is a no-op returning
success that does not request a device and leaves the state — hence the
single open reader/writer pair — untouched; the guard does not cover the
Connecting state: any supported, not-yet-connected state (Connecting
included) proceeds to request a device. -/
theorem connect_connected_noop (ts e : String) (fails readable writable : Bool)
    (st stc : TransportState) (hsup : st.isSupported = true) (h : st.isConnected = true)
    (h2 : stc.isSupported = true) (h3 : stc.isConnected = false) :
    connect ts st fails e readable writable = ⟨st, true, false⟩ ∧
    (connect ts stc false e readable writable).requestedPort = true := by
  obtain ⟨sup, conn, cing, ds, lg, hp, hr, hw⟩ := st
  cases hsup
  cases h
  obtain ⟨sup2, conn2, cing2, ds2, lg2, hp2, hr2, hw2⟩ := stc
  cases h2
  cases h3
  exact ⟨rfl, rfl⟩

/-- Witness for C5 amended: the connected state is left untouched while
the connecting state triggers a device request. -/
theorem connect_connected_noop_witness :
    connect "t" connectedState false "e" true true = ⟨connectedState, true, false⟩ ∧
    (connect "t" connectingState false "e" true true).requestedPort = true :=
  connect_connected_noop "t" "e" false true true connectedState connectingState rfl rfl rfl rfl

/-- JS falsiness of an optional string (`!x`): `undefined` or `""`. -/
def jsFalsyStr (o : Option String) : Bool :=
  match o with
  | none => true
  | some s => s == ""

/-- Rendering `b.toString(16)`: lowercase hexadecimal digits. -/
def toHex (n : Nat) : String :=
  String.mk (Nat.toDigits 16 n)

/-- Padding `padStart(2, "0")`: left-pad with zeros to two characters. -/
def padStart2 (s : String) : String :=
  String.mk (List.replicate (2 - s.length) '0') ++ s

/-- The debug rendering of the frame (line 164):
`bytes.map(b => b.toString(16).padStart(2, "0")).join(" ")`. -/
def hexDump (bytes : List Nat) : String :=
  String.intercalate " " (bytes.map (fun b => padStart2 (toHex b)))

/-- The handler outcome: a 400-class rejection with its error message,
or the success payload.  The wall-clock `timestamp` field of the success
body is not modelled. -/
inductive HandlerResponse where
  | reject (status : Nat) (errMsg : String)
  | ok (command : FormattedCommand) (hex : String)
deriving DecidableEq

/-- The request handler body (lines 130-167) on a parsed command:
validate `action`, validate the play fields, then return the formatted
command together with its hex dump. -/
def handleRequest (c : ArduinoCommand) : HandlerResponse :=
  if jsFalsyStr c.action then
    .reject 400 "Missing required field: action"
  else if c.action == some "play"
      && (jsFalsyStr c.system || jsFalsyStr c.soundCode || jsFalsyStr c.location) then
    .reject 400 "Play action requires system, soundCode, and location"
  else
    .ok (formatCommand c) (hexDump (formatCommand c).bytes)

/-- On fields that are never the literal empty string, JS falsiness is
absence. -/
theorem jsFalsyStr_eq_none (o : Option String) (ho : o ≠ some "") :
    jsFalsyStr o = true ↔ o = none := by
  cases o with
  | none => simp [jsFalsyStr]
  | some s =>
    have hs : s ≠ "" := fun h => ho (by rw [h])
    simp [jsFalsyStr, hs]

/-- C6: for commands whose string fields are either absent or nonempty,
the handler returns the 400 error `Missing required field: action`
exactly when `action` is absent; returns the 400 error `Play action
requires system, soundCode, and location` when the action is `play` and
any of those three fields is absent; and on every other input returns the
success payload `{command, hex}` where `hex` is the lowercase
space-separated hex dump of the frame bytes. -/
theorem handleRequest_spec (c : ArduinoCommand)
    (ha : c.action ≠ some "") (hs : c.system ≠ some "")
    (hsc : c.soundCode ≠ some "") (hl : c.location ≠ some "") :
    (handleRequest c = .reject 400 "Missing required field: action" ↔ c.action = none) ∧
    (c.action = some "play" →
      (c.system = none ∨ c.soundCode = none ∨ c.location = none) →
      handleRequest c = .reject 400 "Play action requires system, soundCode, and location") ∧
    (c.action ≠ none →
      (c.action = some "play" → c.system ≠ none ∧ c.soundCode ≠ none ∧ c.location ≠ none) →
      handleRequest c = .ok (formatCommand c) (hexDump (formatCommand c).bytes)) := by
  have hfa := jsFalsyStr_eq_none c.action ha
  have hfs := jsFalsyStr_eq_none c.system hs
  have hfsc := jsFalsyStr_eq_none c.soundCode hsc
  have hfl := jsFalsyStr_eq_none c.location hl
  refine ⟨?_, ?_, ?_⟩
  · cases hact : c.action with
    | none =>
      simp [handleRequest, jsFalsyStr, hact]
    | some a =>
      rw [hact] at hfa
      have hfa2 : jsFalsyStr (some a) = false := by
        cases hcase : jsFalsyStr (some a) with
        | true => exact absurd (hfa.mp hcase) (by simp)
        | false => rfl
      simp only [handleRequest, hact, hfa2, Bool.false_eq_true, if_false]
      constructor
      · intro hcontra
        split at hcontra <;> simp_all
      · intro hcontra
        exact absurd hcontra (by simp)
  · intro hp hmiss
    have hfa2 : jsFalsyStr c.action = false := by
      cases hcase : jsFalsyStr c.action with
      | true => rw [hfa.mp hcase] at hp; exact absurd hp (by simp)
      | false => rfl
    rcases hmiss with h | h | h <;>
      simp [handleRequest, hp, hfa2, h, jsFalsyStr]
  · intro hne hreq
    have hfa2 : jsFalsyStr c.action = false := by
      cases hcase : jsFalsyStr c.action with
      | true => exact absurd (hfa.mp hcase) hne
      | false => rfl
    by_cases hp : c.action = some "play"
    · obtain ⟨h1, h2, h3⟩ := hreq hp
      have f1 : jsFalsyStr c.system = false := by
        cases hcase : jsFalsyStr c.system with
        | true => exact absurd (hfs.mp hcase) h1
        | false => rfl
      have f2 : jsFalsyStr c.soundCode = false := by
        cases hcase : jsFalsyStr c.soundCode with
        | true => exact absurd (hfsc.mp hcase) h2
        | false => rfl
      have f3 : jsFalsyStr c.location = false := by
        cases hcase : jsFalsyStr c.location with
        | true => exact absurd (hfl.mp hcase) h3
        | false => rfl
      simp [handleRequest, hfa2, f1, f2, f3]
    · have hbeq : (c.action == some "play") = false := by
        cases hact : c.action with
        | none => exact absurd hact hne
        | some a =>
          rw [hact] at hp
          have haa : a ≠ "play" := fun hcontra => hp (by rw [hcontra])
          simp [haa]
      simp [handleRequest, hfa2, hbeq]

/-- Witness for C6 at a stop command. -/
theorem handleRequest_spec_witness :
    ((handleRequest stopCommand = .reject 400 "Missing required field: action"
        ↔ stopCommand.action = none) ∧
      (stopCommand.action = some "play" →
        (stopCommand.system = none ∨ stopCommand.soundCode = none ∨
            stopCommand.location = none) →
        handleRequest stopCommand
          = .reject 400 "Play action requires system, soundCode, and location") ∧
      (stopCommand.action ≠ none →
        (stopCommand.action = some "play" →
          stopCommand.system ≠ none ∧ stopCommand.soundCode ≠ none ∧
            stopCommand.location ≠ none) →
        handleRequest stopCommand
          = .ok (formatCommand stopCommand) (hexDump (formatCommand stopCommand).bytes))) :=
  handleRequest_spec stopCommand (by decide) (by decide) (by decide) (by decide)

end Auscultation
